import Mathlib

/-!
Shallow embedding of the reconciliation and delta engine of the sdm-ogame
repository (src/thoth): the entity records of thoth/data_models.py, the
best-report selectors (thoth/reports.py `get_best_api_key` and
thoth/ogame_api.py `get_best_api_key`), the report ingestor
(thoth/reports.py `save_report_with_coords`), the planet reconciler
(thoth/ogame_api.py `sync_planets`) and the delta engine
(thoth/reports.py `ReportWithDelta.__init__`).

Timestamps are modelled as integers (an instant on the UTC time line, in
seconds); `datetime.now(timezone.utc)` becomes an explicit `now` argument.
Python dicts are modelled as association lists of their `.items()`;
SQLAlchemy sessions become explicit state passing on a `Store` value, a
raised exception becomes an `Except.error` result, and leaving the
`with Session()` block without committing rolls the state back to the
pre-call store (the `..._result` wrappers).
-/

namespace SdmOgame

/-- A fleet line item of a report: data_models `Ships` row
(`ship_type`, `count`). -/
structure Ships where
  ship_type : Int
  count : Int
deriving DecidableEq, Repr

/-- Modelled from the spec: `data_models.Ships.PEACEFUL_SHIPS`, the fixed
set of designated non-military ship types, referenced by
thoth/reports.py but defined in a newer data_models.py absent from src/;
taken as the identically named set in thoth/ogame_api.py
(`PEACEFUL_SHIPS = {202, 203, 208, 210, 212, 217, 216, 220}`). -/
def Ships.PEACEFUL_SHIPS : List Int := [202, 203, 208, 210, 212, 217, 216, 220]

/-- A technology line item of a report: data_models `Techs` row
(`tech_type`, `level`). -/
structure Techs where
  tech_type : Int
  level : Int
deriving DecidableEq, Repr

/-- The optional resource snapshot of a report (data_models `Resources`). -/
structure Resources where
  metal : Int
  crystal : Int
  deuterium : Int
deriving DecidableEq, Repr

/-- A (galaxy, system, position) coordinate triple.  The source stores the
three columns separately and parses `"g:s:p"` strings at the feed boundary
(`CoordinatesMixin.set_coords`); the embedding takes the already parsed
triple, and an unset coordinate is `Option.none`. -/
structure Coords where
  galaxy : Int
  system : Int
  position : Int
deriving DecidableEq, Repr

/-- data_models `Planet` row, keyed by (ogame_id, galaxy, system, position). -/
structure Planet where
  ogame_id : Int
  galaxy : Int
  system : Int
  position : Int
  name : Option String
  has_moon : Bool
  destroyed : Bool
  manual_edit : Option Int
deriving DecidableEq, Repr

/-- data_models `ReportAPIKey` row with its owned line-item collections. -/
structure ReportAPIKey where
  report_api_key : String
  created_at : Int
  ogame_id : Int
  source : String
  from_moon : Bool
  coords : Option Coords
  ships : List Ships
  techs : List Techs
  resources : Option Resources
deriving DecidableEq, Repr

/-- data_models `Player` row. -/
structure Player where
  ogame_id : Int
  name : String
deriving DecidableEq, Repr

/-- The entity store: the durable tables touched by this core. -/
structure Store where
  players : List Player
  planets : List Planet
  reports : List ReportAPIKey
deriving DecidableEq, Repr

/-- `timedelta(days=7)` in seconds. -/
def sevenDays : Int := 7 * 86400

/-- data_models `Planet.has_recent_manual_edit`:
`manual_edit is not None and manual_edit >= utcnow() - timedelta(days=7)`. -/
def Planet.has_recent_manual_edit (now : Int) (p : Planet) : Bool :=
  match p.manual_edit with
  | none => false
  | some t => decide (now - sevenDays ≤ t)

/-- Modelled from the spec: `ReportAPIKey.military_ships_total`, referenced
by thoth/reports.py but defined in a newer data_models.py absent from
src/.  Per the spec's glossary, military strength is the sum of the
report's ship counts excluding designated peaceful ship types; stored
ship line items are military only (peaceful types are filtered out before
storage), so this is the sum of the stored counts — the same expression
`sum(s.count for s in k.ships)` that thoth/ogame_api.py inlines. -/
def ReportAPIKey.military_ships_total (r : ReportAPIKey) : Int :=
  (r.ships.map (fun x => x.count)).sum

/-- Python `max(xs, key=...)` generalized over a strict comparison:
folds keeping the current element, replacing it only when the candidate is
strictly greater, hence returning the first maximal element; `none` on the
empty list (where Python raises). -/
def pyMax {α : Type} (lt : α → α → Bool) : List α → Option α
  | [] => none
  | x :: xs => some (xs.foldl (fun c y => if lt c y then y else c) x)

/-- The strict comparison of the Python key `lambda k: k.created_at`. -/
def ltCreated (a b : ReportAPIKey) : Bool := decide (a.created_at < b.created_at)

/-- The strict comparison of the Python key
`lambda k: (k.military_ships_total, k.created_at)` (tuple comparison is
lexicographic). -/
def ltStrengthCreated (a b : ReportAPIKey) : Bool :=
  decide (a.military_ships_total < b.military_ships_total ∨
    (a.military_ships_total = b.military_ships_total ∧ a.created_at < b.created_at))

/-- Strict comparison on integers, for `max(total for _, total in totals)`. -/
def ltInt (a b : Int) : Bool := decide (a < b)

/-- The recent-BattleSim filter predicate of thoth/reports.py
`get_best_api_key`: `k.source == "BattleSim" and k.created_at >=
datetime.now(timezone.utc) - timedelta(days=7)`. -/
def isRecentBattleSim (now : Int) (k : ReportAPIKey) : Bool :=
  decide (k.source = "BattleSim") && decide (now - sevenDays ≤ k.created_at)

/-- thoth/reports.py `get_best_api_key(player_model)`, applied to the
player's `report_api_keys` collection. -/
def get_best_api_key (now : Int) (report_api_keys : List ReportAPIKey) :
    Option ReportAPIKey :=
  let recent_battle_sims := report_api_keys.filter (isRecentBattleSim now)
  if !recent_battle_sims.isEmpty then
    pyMax ltCreated recent_battle_sims
  else
    let ogame_keys := report_api_keys.filter (fun k => decide (k.source = "Ogame"))
    if ogame_keys.isEmpty then none
    else pyMax ltStrengthCreated ogame_keys

/-- thoth/ogame_api.py `get_best_api_key(player_model)` (the selector used
by `get_player_info`).  Python computes `threshold = max(totals) * 0.8`
in floating point and keeps keys with `total >= threshold`; for the
integer totals involved this is embedded exactly as
`4 * max_total ≤ 5 * total`. -/
def ogameapi_get_best_api_key (now : Int) (report_api_keys : List ReportAPIKey) :
    Option ReportAPIKey :=
  let battle_sim_keys := report_api_keys.filter (fun k =>
    decide (k.source = "BattleSim") && decide (now - sevenDays ≤ k.created_at))
  if !battle_sim_keys.isEmpty then
    pyMax ltCreated battle_sim_keys
  else
    let ogame_keys := report_api_keys.filter (fun k => decide (k.source = "Ogame"))
    if ogame_keys.isEmpty then none
    else
      let totals := ogame_keys.map (fun k => (k, k.military_ships_total))
      let max_total : Int := match pyMax ltInt (totals.map Prod.snd) with
        | some t => t
        | none => 0
      let eligible := (totals.filter (fun p => decide (4 * max_total ≤ 5 * p.2))).map Prod.fst
      pyMax ltCreated (if eligible.isEmpty then ogame_keys else eligible)

/-- The errors raised by thoth/reports.py `ReportAPIException`, identified
by their `reason` code: `"duplicate_key"` (DuplicateReport) and
`"fewer_ships"` (Regression). -/
inductive ReportError where
  | duplicate_key
  | fewer_ships
deriving DecidableEq, Repr

/-- Primary-key lookup `session.get(ReportAPIKey, token)`. -/
def findReport (s : Store) (tok : String) : Option ReportAPIKey :=
  s.reports.find? (fun r => decide (r.report_api_key = tok))

/-- Primary-key lookup `session.get(Player, player_id)`. -/
def findPlayer (s : Store) (pid : Int) : Option Player :=
  s.players.find? (fun p => decide (p.ogame_id = pid))

/-- Primary-key lookup `session.get(Planet, (player_id, galaxy, system,
position))`; also the `ReportAPIKey.planet` viewonly relationship. -/
def findPlanet (s : Store) (pid : Int) (c : Coords) : Option Planet :=
  s.planets.find? (fun p =>
    decide (p.ogame_id = pid ∧ p.galaxy = c.galaxy ∧ p.system = c.system ∧
      p.position = c.position))

/-- The `Player.report_api_keys` relationship: the reports whose
`ogame_id` foreign key is the player's id. -/
def playerReports (s : Store) (pid : Int) : List ReportAPIKey :=
  s.reports.filter (fun r => decide (r.ogame_id = pid))

/-- The planet's primary key. -/
def planetKey (p : Planet) : Int × Int × Int × Int :=
  (p.ogame_id, p.galaxy, p.system, p.position)

/-- The `ReportAPIKey` row (with line items and resource snapshot) built
by `save_report_with_coords` on acceptance: ship line items are the
non-peaceful input ship entries with nonzero count, tech line items are
all input tech entries. -/
def builtReport (report_api_key_str : String) (player_id : Int)
    (ships techs : List (Int × Int)) (source : String) (created_at : Int)
    (coord_str : Option Coords) (from_moon : Bool)
    (resources : Option Resources) : ReportAPIKey :=
  { report_api_key := report_api_key_str
    created_at := created_at
    ogame_id := player_id
    source := source
    from_moon := from_moon
    coords := coord_str
    ships := ((ships.filter (fun p => !(Ships.PEACEFUL_SHIPS.contains p.1))).filter
        (fun p => decide (p.2 ≠ 0))).map
      (fun p => { ship_type := p.1, count := p.2 })
    techs := techs.map (fun p => { tech_type := p.1, level := p.2 })
    resources := resources }

/-- The planet update of an accepted ingest with coordinates when the
planet already exists:
`elif from_moon and not planet.has_moon: planet.has_moon = True`,
applied to the row with the matching primary key. -/
def ingestMoonUpdate (pid : Int) (c : Coords) (from_moon : Bool) (p : Planet) :
    Planet :=
  if planetKey p = (pid, c.galaxy, c.system, c.position) then
    if from_moon && !p.has_moon then { p with has_moon := true } else p
  else p

/-- The planet half of an accepted ingest (`if coord_str:` in
`save_report_with_coords`, applied after the report row is added): no
coordinates — nothing; no planet at (player, coordinate) — create one with
`manual_edit = created_at` (`destroyed` takes its column default, false);
existing planet — set the moon flag if the report indicates an unrecorded
moon. -/
def ingestPlanets (s1 : Store) (player_id : Int) :
    Option Coords → Bool → Int → Store
  | none, _, _ => s1
  | some c, from_moon, created_at =>
    match findPlanet s1 player_id c with
    | none =>
      { s1 with planets := s1.planets ++
        [{ ogame_id := player_id, galaxy := c.galaxy, system := c.system,
           position := c.position, name := none, has_moon := from_moon,
           destroyed := false, manual_edit := some created_at }] }
    | some _ =>
      { s1 with planets := s1.planets.map (ingestMoonUpdate player_id c from_moon) }

/-- thoth/reports.py `save_report_with_coords`.  The `with Session()`
block becomes a transition from the incoming store to an
`Except ReportError Store`; an error means the exception propagated and
the session was closed without commit (state rolled back, see
`ingest_result`).  The `ships`/`techs` dict arguments are their item
lists; `force` is the spec's `allow_regression`. -/
def save_report_with_coords (s : Store) (report_api_key_str : String)
    (player_id : Int) (ships techs : List (Int × Int)) (source : String)
    (created_at : Int) (coord_str : Option Coords) (from_moon : Bool)
    (resources : Option Resources) (force : Bool) (now : Int) :
    Except ReportError Store :=
  let military_ships := ships.filter (fun p => !(Ships.PEACEFUL_SHIPS.contains p.1))
  if (findReport s report_api_key_str).isSome then
    .error .duplicate_key
  else
    -- `if not force and player and (best_key := get_best_api_key(player)):`
    let best_key : Option ReportAPIKey :=
      match findPlayer s player_id with
      | some _ => get_best_api_key now (playerReports s player_id)
      | none => none
    let regression : Bool := !force &&
      (match best_key with
       | some bk => decide ((military_ships.map Prod.snd).sum < bk.military_ships_total)
       | none => false)
    if regression then
      .error .fewer_ships
    else
      let report : ReportAPIKey := builtReport report_api_key_str player_id
        ships techs source created_at coord_str from_moon resources
      .ok (ingestPlanets { s with reports := s.reports ++ [report] }
        player_id coord_str from_moon created_at)

/-- Whether the `Except` result is a success (no exception raised). -/
def exceptIsOk {ε α : Type} : Except ε α → Bool
  | .ok _ => true
  | .error _ => false

/-- The observable outcome of one ingest call: the store after the call
(rolled back to the original on an exception) paired with the raised
error, if any. -/
def ingest_result (s : Store) (report_api_key_str : String) (player_id : Int)
    (ships techs : List (Int × Int)) (source : String) (created_at : Int)
    (coord_str : Option Coords) (from_moon : Bool) (resources : Option Resources)
    (force : Bool) (now : Int) : Store × Option ReportError :=
  match save_report_with_coords s report_api_key_str player_id ships techs source
      created_at coord_str from_moon resources force now with
  | .ok s' => (s', none)
  | .error e => (s, some e)

/-- One record of the bulk scan feed consumed by `sync_planets`, already
parsed: the raw JSON dict's `@attributes.coords` split into integers,
`has_moon = "moon" in planet`, `name = attrs.get("name")`. -/
structure Observation where
  galaxy : Int
  system : Int
  position : Int
  has_moon : Bool
  name : Option String
deriving DecidableEq, Repr

/-- The runtime error of `sync_planets`' second loop (see `sync_planets`). -/
inductive SyncError where
  | attribute_error
deriving DecidableEq, Repr

/-- The per-row update of `sync_planets`' first loop on an existing
planet: `has_moon = has_moon or observed`, `name = planet_name`
(unconditional assignment), and `destroyed = False` unless a manual edit
is recent — applied to the row with the matching primary key. -/
def syncUpdate (now pid : Int) (o : Observation) (p : Planet) : Planet :=
  if planetKey p = (pid, o.galaxy, o.system, o.position) then
    -- the source first assigns has_moon and name on the row, then tests
    -- `has_recent_manual_edit` (which only reads manual_edit) on the
    -- updated row before clearing `destroyed`
    if !(Planet.has_recent_manual_edit now
        { p with has_moon := p.has_moon || o.has_moon, name := o.name }) then
      { p with
        has_moon := p.has_moon || o.has_moon
        name := o.name
        destroyed := false }
    else
      { p with has_moon := p.has_moon || o.has_moon, name := o.name }
  else p

/-- The body of the first loop of thoth/ogame_api.py `sync_planets` for a
single feed record: update the stored planet at the record's coordinates
(moon flag OR'd, name assigned unconditionally, `destroyed` cleared unless
a manual edit is recent) or insert a new one. -/
def syncStep (now pid : Int) (s : Store) (o : Observation) : Store :=
  match findPlanet s pid ⟨o.galaxy, o.system, o.position⟩ with
  | some _ =>
    { s with planets := s.planets.map (syncUpdate now pid o) }
  | none =>
    { s with planets := s.planets ++
      [{ ogame_id := pid, galaxy := o.galaxy, system := o.system,
         position := o.position, name := o.name, has_moon := o.has_moon,
         destroyed := false, manual_edit := none }] }

/-- thoth/ogame_api.py `sync_planets(player_id, planets)`.  After the
first loop upserts every observed coordinate, the second loop iterates the
player's stored planets and, for any whose coordinates were not seen,
evaluates `planet.has_recent_manual_edit()` — but `planet` is the first
loop's variable, i.e. the last raw feed dict (or unbound when the feed is
empty), so the expression raises AttributeError (resp. NameError) instead
of reaching `session.delete(planet)`; the session then closes without
commit and every change of the pass is rolled back. -/
def sync_planets (now pid : Int) (s : Store) (obs : List Observation) :
    Except SyncError Store :=
  let seen_coords := obs.map (fun o => (o.galaxy, o.system, o.position))
  let s1 := obs.foldl (syncStep now pid) s
  if (s1.planets.filter (fun p => decide (p.ogame_id = pid))).all
      (fun p => seen_coords.contains (p.galaxy, p.system, p.position)) then
    .ok s1
  else
    .error .attribute_error

/-- The observable outcome of one reconcile pass: the store after the pass
(rolled back to the original when the pass raised) and the error, if any. -/
def sync_result (now pid : Int) (s : Store) (obs : List Observation) :
    Store × Option SyncError :=
  match sync_planets now pid s obs with
  | .ok s' => (s', none)
  | .error e => (s, some e)

/-- Some stored planet row has the given primary key. -/
abbrev presentKey (s : Store) (key : Int × Int × Int × Int) : Prop :=
  ∃ q ∈ s.planets, planetKey q = key

/-- Every stored planet row with the given primary key has its moon flag
set. -/
abbrev moonTrueAt (s : Store) (key : Int × Int × Int × Int) : Prop :=
  ∀ q ∈ s.planets, planetKey q = key → q.has_moon = true

/-- Some stored planet row has the given primary key and the given name. -/
abbrev nameIs (s : Store) (key : Int × Int × Int × Int) (n : Option String) : Prop :=
  ∃ q ∈ s.planets, planetKey q = key ∧ q.name = n

/-- Python dict `.get(k, 0)` on an association list. -/
def dictGet {κ : Type} [DecidableEq κ] (m : List (κ × Int)) (k : κ) : Int :=
  match m.find? (fun p => decide (p.1 = k)) with
  | some p => p.2
  | none => 0

/-- Python dict `[k]` lookup on an association list, `none` when absent. -/
def lookupKV {κ : Type} [DecidableEq κ] (m : List (κ × Int)) (k : κ) : Option Int :=
  (m.find? (fun p => decide (p.1 = k))).map Prod.snd

/-- The per-category loop of `ReportWithDelta.__init__`:
`for k in set(new_cat) | set(old_cat): deltas[cat][k] = new_cat.get(k, 0)
- old_cat.get(k, 0)`. -/
def deltaMap {κ : Type} [DecidableEq κ] (new_cat old_cat : List (κ × Int)) :
    List (κ × Int) :=
  ((new_cat.map Prod.fst ++ old_cat.map Prod.fst).dedup).map
    (fun k => (k, dictGet new_cat k - dictGet old_cat k))

/-- Modelled from the spec: `report_details["ships"]` of the newer
data_models.py absent from src/ — the report's ship line items as a
ship-type → count mapping (the old data_models' `fleet_and_tech_dict`
builds the same mapping). -/
def report_details_ships (r : ReportAPIKey) : List (Int × Int) :=
  r.ships.map (fun x => (x.ship_type, x.count))

/-- Modelled from the spec: `report_details["techs"]` of the newer
data_models.py absent from src/ — the report's technology line items as a
tech-type → level mapping. -/
def report_details_techs (r : ReportAPIKey) : List (Int × Int) :=
  r.techs.map (fun x => (x.tech_type, x.level))

/-- Modelled from the spec: `report_details["resources"]` of the newer
data_models.py absent from src/ — the optional resource snapshot as a
mapping of the three named quantities (empty when the report has none). -/
def report_details_resources (r : ReportAPIKey) : List (String × Int) :=
  match r.resources with
  | some x => [("metal", x.metal), ("crystal", x.crystal), ("deuterium", x.deuterium)]
  | none => []

/-- The three per-category delta mappings of a `ReportWithDelta`. -/
structure Deltas where
  resources : List (String × Int)
  ships : List (Int × Int)
  techs : List (Int × Int)
deriving DecidableEq, Repr

/-- `self.deltas = {"resources": {}, "ships": {}, "techs": {}}`. -/
def emptyDeltas : Deltas := { resources := [], ships := [], techs := [] }

/-- `str.startswith` via the character lists of the two strings. -/
def str_starts_with (s pre : String) : Bool := pre.data.isPrefixOf s.data

/-- The `last_report` query of `ReportWithDelta.__init__`: the stored
report of source `"Ogame"` for the same player, moon flag and coordinates
with a strictly earlier creation timestamp, latest first
(`order_by(created_at.desc()).first()`; among equal timestamps the
database order is unspecified and the embedding keeps the first). -/
def last_report_query (stored : List ReportAPIKey) (new_report : ReportAPIKey) :
    Option ReportAPIKey :=
  pyMax ltCreated
    (stored.filter (fun k =>
      decide (k.source = "Ogame") && decide (k.ogame_id = new_report.ogame_id) &&
      decide (k.from_moon = new_report.from_moon) &&
      decide (k.coords = new_report.coords) &&
      decide (k.created_at < new_report.created_at)))

/-- thoth/reports.py `ReportWithDelta.__init__` on an already fetched
`new_report`, over the stored reports: returns the computed `deltas` and
the final `last_report` (`none` for non-`sr-` reports, when no qualifying
older report exists, or when `compute_delta` is false). -/
def report_with_delta (stored : List ReportAPIKey) (new_report : ReportAPIKey)
    (compute_delta : Bool) : Deltas × Option ReportAPIKey :=
  if !str_starts_with new_report.report_api_key "sr-" then
    (emptyDeltas, none)
  else
    match last_report_query stored new_report with
    | none => (emptyDeltas, none)
    | some last_report =>
      if !compute_delta then (emptyDeltas, none)
      else
        ({ resources := deltaMap (report_details_resources new_report)
             (report_details_resources last_report)
           ships := deltaMap (report_details_ships new_report)
             (report_details_ships last_report)
           techs := deltaMap (report_details_techs new_report)
             (report_details_techs last_report) },
         some last_report)

/-! Concrete store contents used to evaluate the definitions. -/

/-- An empty store. -/
def emptyStore : Store := { players := [], planets := [], reports := [] }

/-- A recent user-simulated report for player 1. -/
def simR : ReportAPIKey :=
  { report_api_key := "bs1", created_at := 1000000, ogame_id := 1,
    source := "BattleSim", from_moon := false, coords := none,
    ships := [], techs := [], resources := none }

/-- A strong, slightly older primary-scout report for player 1. -/
def ogameR : ReportAPIKey :=
  { report_api_key := "sr-z", created_at := 999999, ogame_id := 1,
    source := "Ogame", from_moon := false, coords := none,
    ships := [{ ship_type := 204, count := 500 }], techs := [], resources := none }

/-- Primary-scout report for player 9: strength 10, created first. -/
def rLexA : ReportAPIKey :=
  { report_api_key := "sr-a1", created_at := 1, ogame_id := 9,
    source := "Ogame", from_moon := false, coords := some ⟨1, 50, 3⟩,
    ships := [{ ship_type := 204, count := 10 }], techs := [], resources := none }

/-- Primary-scout report for player 9: strength 9, created later. -/
def rLexB : ReportAPIKey :=
  { report_api_key := "sr-a2", created_at := 2, ogame_id := 9,
    source := "Ogame", from_moon := false, coords := some ⟨1, 50, 3⟩,
    ships := [{ ship_type := 204, count := 9 }], techs := [], resources := none }

/-- A stored report whose token collides with a later ingest. -/
def rTok : ReportAPIKey :=
  { report_api_key := "tok1", created_at := 5, ogame_id := 1,
    source := "Ogame", from_moon := false, coords := none,
    ships := [], techs := [], resources := none }

/-- Store already holding `rTok`. -/
def storeC3 : Store := { players := [], planets := [], reports := [rTok] }

/-- The current best report of player 1 (strength 5). -/
def rBest : ReportAPIKey :=
  { report_api_key := "sr-old", created_at := 10, ogame_id := 1,
    source := "Ogame", from_moon := false, coords := some ⟨2, 100, 8⟩,
    ships := [{ ship_type := 401, count := 5 }], techs := [], resources := none }

/-- Store with player 1 and their best report `rBest`. -/
def storeC4 : Store :=
  { players := [{ ogame_id := 1, name := "Alice" }], planets := [], reports := [rBest] }

/-- A stored planet of player 1 at 1:1:1 without manual-edit protection. -/
def pC5 : Planet :=
  { ogame_id := 1, galaxy := 1, system := 1, position := 1, name := none,
    has_moon := false, destroyed := false, manual_edit := none }

/-- Store holding only `pC5`. -/
def storeC5 : Store := { players := [], planets := [pC5], reports := [] }

/-- A reconcile feed that no longer observes 1:1:1. -/
def obsC5 : List Observation :=
  [{ galaxy := 2, system := 2, position := 2, has_moon := false, name := none }]

/-- The older primary-scout report at 3:3:3 (ship 201 at 5, ship 301 at 3). -/
def rDeltaOld : ReportAPIKey :=
  { report_api_key := "sr-d1", created_at := 100, ogame_id := 1,
    source := "Ogame", from_moon := false, coords := some ⟨3, 3, 3⟩,
    ships := [{ ship_type := 201, count := 5 }, { ship_type := 301, count := 3 }],
    techs := [{ tech_type := 109, level := 10 }],
    resources := some { metal := 100, crystal := 50, deuterium := 10 } }

/-- The newer primary-scout report at 3:3:3 (ship 201 at 12, no ship 301). -/
def rDeltaNew : ReportAPIKey :=
  { report_api_key := "sr-d2", created_at := 200, ogame_id := 1,
    source := "Ogame", from_moon := false, coords := some ⟨3, 3, 3⟩,
    ships := [{ ship_type := 201, count := 12 }],
    techs := [{ tech_type := 109, level := 12 }],
    resources := some { metal := 150, crystal := 60, deuterium := 5 } }

/-- A stored planet of player 1 whose moon flag is already true. -/
def pMoon : Planet :=
  { ogame_id := 1, galaxy := 4, system := 4, position := 4, name := some "M",
    has_moon := true, destroyed := false, manual_edit := none }

/-- Store holding only `pMoon`. -/
def storeC7 : Store := { players := [], planets := [pMoon], reports := [] }

/-- A reconcile feed observing 4:4:4 without a moon. -/
def obsC7 : List Observation :=
  [{ galaxy := 4, system := 4, position := 4, has_moon := false, name := some "X" }]

/-- A stored planet of player 1 at 1:1:1 named "Home". -/
def pHome : Planet :=
  { ogame_id := 1, galaxy := 1, system := 1, position := 1, name := some "Home",
    has_moon := false, destroyed := false, manual_edit := none }

/-- Store holding only `pHome`. -/
def storeC9 : Store := { players := [], planets := [pHome], reports := [] }

/-- A reconcile feed observing 1:1:1 with no name. -/
def obsC9 : List Observation :=
  [{ galaxy := 1, system := 1, position := 1, has_moon := false, name := none }]

/-- Store holding reports of player 1 but no Player row. -/
def storeC10 : Store := { players := [], planets := [], reports := [rBest] }

/-- The store produced by an accepted ingest of ships `{204: 0, 401: 5}`
and techs `{109: 3}` into the empty store. -/
def storeC8' : Store :=
  (ingest_result emptyStore "bs4" 1 [(204, 0), (401, 5)] [(109, 3)] "BattleSim"
    0 none false none false 0).1

/-! Helper lemmas. -/

theorem isEmpty_false_of_mem {α : Type} {a : α} {l : List α} (h : a ∈ l) :
    l.isEmpty = false := by
  cases l with
  | nil => cases h
  | cons x xs => rfl

/-- Invariants of the fold inside `pyMax`, for a strict comparison that is
transitive, irreflexive and negatively transitive: the result is the seed
or a list element, and no compared element is strictly greater. -/
theorem pyFoldl_spec {α : Type} (lt : α → α → Bool)
    (htr : ∀ a b c, lt a b = true → lt b c = true → lt a c = true)
    (hirr : ∀ a, lt a a = false)
    (hntr : ∀ a b c, lt a b = false → lt b c = false → lt a c = false) :
    ∀ (xs : List α) (cur : α),
      (xs.foldl (fun c y => if lt c y then y else c) cur = cur ∨
        xs.foldl (fun c y => if lt c y then y else c) cur ∈ xs) ∧
      lt (xs.foldl (fun c y => if lt c y then y else c) cur) cur = false ∧
      ∀ y ∈ xs, lt (xs.foldl (fun c y => if lt c y then y else c) cur) y = false := by
  intro xs
  induction xs with
  | nil => exact fun cur => ⟨Or.inl rfl, hirr cur, by simp⟩
  | cons y ys ih =>
    intro cur
    simp only [List.foldl_cons]
    by_cases hly : lt cur y = true
    · rw [if_pos hly]
      obtain ⟨hmem, hcur', hall⟩ := ih y
      refine ⟨?_, ?_, ?_⟩
      · rcases hmem with h | h
        · exact Or.inr (by rw [h]; exact List.mem_cons_self y ys)
        · exact Or.inr (List.mem_cons_of_mem y h)
      · cases h : lt (ys.foldl (fun c y => if lt c y then y else c) y) cur with
        | false => rfl
        | true => exact absurd (htr _ _ _ h hly) (by rw [hcur']; exact Bool.false_ne_true)
      · intro z hz
        rcases List.mem_cons.mp hz with rfl | hz'
        · exact hcur'
        · exact hall z hz'
    · have hly' : lt cur y = false := Bool.not_eq_true _ ▸ eq_false_of_ne_true hly
      rw [if_neg hly]
      obtain ⟨hmem, hcur', hall⟩ := ih cur
      refine ⟨?_, hcur', ?_⟩
      · rcases hmem with h | h
        · exact Or.inl h
        · exact Or.inr (List.mem_cons_of_mem y h)
      · intro z hz
        rcases List.mem_cons.mp hz with rfl | hz'
        · exact hntr _ _ _ hcur' hly'
        · exact hall z hz'

/-- `pyMax` returns an element of the list that no element strictly
exceeds. -/
theorem pyMax_spec {α : Type} (lt : α → α → Bool)
    (htr : ∀ a b c, lt a b = true → lt b c = true → lt a c = true)
    (hirr : ∀ a, lt a a = false)
    (hntr : ∀ a b c, lt a b = false → lt b c = false → lt a c = false)
    {l : List α} {m : α} (hm : pyMax lt l = some m) :
    m ∈ l ∧ ∀ y ∈ l, lt m y = false := by
  cases l with
  | nil => simp [pyMax] at hm
  | cons x xs =>
    simp only [pyMax, Option.some.injEq] at hm
    obtain ⟨hmem, hcur, hall⟩ := pyFoldl_spec lt htr hirr hntr xs x
    subst hm
    constructor
    · rcases hmem with h | h
      · rw [h]; exact List.mem_cons_self x xs
      · exact List.mem_cons_of_mem x h
    · intro y hy
      rcases List.mem_cons.mp hy with rfl | hy'
      · exact hcur
      · exact hall y hy'

/-- `pyMax` is `some` on nonempty lists. -/
theorem pyMax_eq_some_of_ne_nil {α : Type} (lt : α → α → Bool) {l : List α}
    (h : l ≠ []) : ∃ m, pyMax lt l = some m := by
  cases l with
  | nil => exact absurd rfl h
  | cons x xs => exact ⟨_, rfl⟩

theorem ltCreated_tr : ∀ a b c, ltCreated a b = true → ltCreated b c = true →
    ltCreated a c = true := by
  intro a b c
  simp only [ltCreated, decide_eq_true_eq]
  omega

theorem ltCreated_irr : ∀ a, ltCreated a a = false := by
  intro a
  simp [ltCreated]

theorem ltCreated_ntr : ∀ a b c, ltCreated a b = false → ltCreated b c = false →
    ltCreated a c = false := by
  intro a b c
  simp only [ltCreated, decide_eq_false_iff_not]
  omega

theorem ltStrengthCreated_tr : ∀ a b c, ltStrengthCreated a b = true →
    ltStrengthCreated b c = true → ltStrengthCreated a c = true := by
  intro a b c
  simp only [ltStrengthCreated, decide_eq_true_eq]
  omega

theorem ltStrengthCreated_irr : ∀ a, ltStrengthCreated a a = false := by
  intro a
  simp [ltStrengthCreated]

theorem ltStrengthCreated_ntr : ∀ a b c, ltStrengthCreated a b = false →
    ltStrengthCreated b c = false → ltStrengthCreated a c = false := by
  intro a b c
  simp only [ltStrengthCreated, decide_eq_false_iff_not]
  omega

/-! Claim theorems. -/

/-- C1: for every player with at least one report of source kind
`"BattleSim"` created within the last 7 days, `get_best_api_key`
(thoth/reports.py) returns a `"BattleSim"` report created within the last
7 days whose creation timestamp is maximal among those, and never an
`"Ogame"` report, for arbitrary military strengths of all reports. -/
theorem best_recent_battlesim_wins (now : Int) (ks : List ReportAPIKey)
    (h : ∃ k ∈ ks, isRecentBattleSim now k = true) :
    ∃ r, get_best_api_key now ks = some r ∧
      r.source = "BattleSim" ∧ r.source ≠ "Ogame" ∧
      isRecentBattleSim now r = true ∧
      ∀ k ∈ ks, isRecentBattleSim now k = true → k.created_at ≤ r.created_at := by
  obtain ⟨k, hk, hrec⟩ := h
  have hkf : k ∈ ks.filter (isRecentBattleSim now) := List.mem_filter.mpr ⟨hk, hrec⟩
  have hne : (ks.filter (isRecentBattleSim now)).isEmpty = false :=
    isEmpty_false_of_mem hkf
  obtain ⟨r, hr⟩ := pyMax_eq_some_of_ne_nil ltCreated (List.ne_nil_of_mem hkf)
  have hspec := pyMax_spec ltCreated ltCreated_tr ltCreated_irr ltCreated_ntr hr
  have hrf : isRecentBattleSim now r = true := (List.mem_filter.mp hspec.1).2
  have hsrc : r.source = "BattleSim" :=
    of_decide_eq_true (Bool.and_elim_left hrf)
  refine ⟨r, ?_, hsrc, ?_, hrf, ?_⟩
  · simp only [get_best_api_key, hne, Bool.not_false, if_true]
    exact hr
  · rw [hsrc]; decide
  · intro k' hk' hrec'
    have hmem : k' ∈ ks.filter (isRecentBattleSim now) :=
      List.mem_filter.mpr ⟨hk', hrec'⟩
    have := hspec.2 k' hmem
    simp only [ltCreated, decide_eq_false_iff_not] at this
    omega

/-- C1 witness: a player holding a strong primary-scout report and a
recent user-simulated report; the selector picks the user-simulated one. -/
theorem best_recent_battlesim_wins_witness :
    ∃ r, get_best_api_key 1000000 [ogameR, simR] = some r ∧
      r.source = "BattleSim" ∧ r.source ≠ "Ogame" ∧
      isRecentBattleSim 1000000 r = true ∧
      ∀ k ∈ [ogameR, simR], isRecentBattleSim 1000000 k = true →
        k.created_at ≤ r.created_at :=
  best_recent_battlesim_wins 1000000 [ogameR, simR]
    ⟨simR, by decide, by decide⟩

/-- C2 (amended): with no recent user-simulated report, thoth/reports.py
`get_best_api_key` returns none when the player has no `"Ogame"` report,
and otherwise an `"Ogame"` report maximal in the lexicographic
(military strength, creation timestamp) pair.  (The distinct selector
`get_best_api_key` in thoth/ogame_api.py does not satisfy this policy,
see the counterexample.) -/
theorem best_ogame_lexicographic (now : Int) (ks : List ReportAPIKey)
    (hns : ∀ k ∈ ks, isRecentBattleSim now k = false) :
    ((∀ k ∈ ks, k.source ≠ "Ogame") → get_best_api_key now ks = none) ∧
    ((∃ k ∈ ks, k.source = "Ogame") →
      ∃ r, get_best_api_key now ks = some r ∧ r ∈ ks ∧ r.source = "Ogame" ∧
        ∀ k ∈ ks, k.source = "Ogame" →
          (k.military_ships_total < r.military_ships_total ∨
            (k.military_ships_total = r.military_ships_total ∧
              k.created_at ≤ r.created_at))) := by
  have hfs : ks.filter (isRecentBattleSim now) = [] :=
    List.filter_eq_nil_iff.mpr (fun k hk => by simp [hns k hk])
  constructor
  · intro hno
    have hog : ks.filter (fun k => decide (k.source = "Ogame")) = [] :=
      List.filter_eq_nil_iff.mpr (fun k hk => by simp [hno k hk])
    simp [get_best_api_key, hfs, hog]
  · intro ⟨k, hk, hsrc⟩
    have hkf : k ∈ ks.filter (fun k => decide (k.source = "Ogame")) :=
      List.mem_filter.mpr ⟨hk, by simp [hsrc]⟩
    obtain ⟨r, hr⟩ := pyMax_eq_some_of_ne_nil ltStrengthCreated
      (List.ne_nil_of_mem hkf)
    have hspec := pyMax_spec ltStrengthCreated ltStrengthCreated_tr
      ltStrengthCreated_irr ltStrengthCreated_ntr hr
    have hrsrc : r.source = "Ogame" := by
      have := (List.mem_filter.mp hspec.1).2
      simpa using this
    refine ⟨r, ?_, (List.mem_filter.mp hspec.1).1, hrsrc, ?_⟩
    · simp only [get_best_api_key, hfs, List.isEmpty_nil, Bool.not_true,
        if_false, isEmpty_false_of_mem hkf, Bool.false_eq_true]
      exact hr
    · intro k' hk' hsrc'
      have hmem : k' ∈ ks.filter (fun k => decide (k.source = "Ogame")) :=
        List.mem_filter.mpr ⟨hk', by simp [hsrc']⟩
      have := hspec.2 k' hmem
      simp only [ltStrengthCreated, decide_eq_false_iff_not] at this
      omega

/-- C2 witness: two primary-scout reports of strengths 10 (earlier) and 9
(later); thoth/reports.py `get_best_api_key` picks a lexicographic
maximum. -/
theorem best_ogame_lexicographic_witness :
    ∃ r, get_best_api_key 2 [rLexA, rLexB] = some r ∧ r ∈ [rLexA, rLexB] ∧
      r.source = "Ogame" ∧
      ∀ k ∈ [rLexA, rLexB], k.source = "Ogame" →
        (k.military_ships_total < r.military_ships_total ∨
          (k.military_ships_total = r.military_ships_total ∧
            k.created_at ≤ r.created_at)) :=
  (best_ogame_lexicographic 2 [rLexA, rLexB] (by decide)).2
    ⟨rLexA, by decide, by decide⟩

/-- C2 counterexample: on the same two primary-scout reports (strength 10
created first, strength 9 created later), the selector `get_best_api_key`
of thoth/ogame_api.py — one of the two functions the claim is about —
returns the strictly weaker, later report instead of the report that is
maximal in the lexicographic (strength, timestamp) pair. -/
theorem ogameapi_best_not_lexicographic_cex :
    ogameapi_get_best_api_key 2 [rLexA, rLexB] = some rLexB ∧
    rLexB.military_ships_total < rLexA.military_ships_total ∧
    rLexA ∈ [rLexA, rLexB] ∧ rLexA.source = "Ogame" ∧
    (∀ k ∈ [rLexA, rLexB], isRecentBattleSim 2 k = false) := by
  refine ⟨by decide, by decide, by decide, by decide, by decide⟩

/-- C3: an ingest whose report token is already stored raises
DuplicateReport (`"duplicate_key"`) and leaves the entire store — reports,
their ship and tech line items, and planets — exactly as before the
call. -/
theorem ingest_duplicate_rejected (s : Store) (tok : String) (pid : Int)
    (ships techs : List (Int × Int)) (src : String) (created : Int)
    (coords : Option Coords) (moon : Bool) (res : Option Resources)
    (force : Bool) (now : Int)
    (h : ∃ r ∈ s.reports, r.report_api_key = tok) :
    ingest_result s tok pid ships techs src created coords moon res force now
      = (s, some ReportError.duplicate_key) := by
  obtain ⟨r, hr, htok⟩ := h
  have hfind : (findReport s tok).isSome = true := by
    unfold findReport
    cases hf : s.reports.find? (fun r => decide (r.report_api_key = tok)) with
    | some _ => rfl
    | none =>
      have := List.find?_eq_none.mp hf r hr
      simp [htok] at this
  have hsave : save_report_with_coords s tok pid ships techs src created coords
      moon res force now = .error .duplicate_key := by
    simp only [save_report_with_coords, hfind, if_true]
  simp only [ingest_result, hsave]

/-- C3 witness: re-ingesting token "tok1" into a store already holding it
fails with `duplicate_key` and returns the unchanged store. -/
theorem ingest_duplicate_rejected_witness :
    ingest_result storeC3 "tok1" 1 [] [] "Ogame" 6 none false none false 6
      = (storeC3, some ReportError.duplicate_key) :=
  ingest_duplicate_rejected storeC3 "tok1" 1 [] [] "Ogame" 6 none false none
    false 6 ⟨rTok, by decide, by decide⟩

/-- C10: an ingest for a player id with no Player row never raises the
Regression (`"fewer_ships"`) error, for every value of `force`
(`allow_regression`) and whatever reports are stored under that id. -/
theorem ingest_no_player_skips_regression (s : Store) (tok : String) (pid : Int)
    (ships techs : List (Int × Int)) (src : String) (created : Int)
    (coords : Option Coords) (moon : Bool) (res : Option Resources)
    (force : Bool) (now : Int)
    (h : findPlayer s pid = none) :
    save_report_with_coords s tok pid ships techs src created coords moon res
      force now ≠ Except.error ReportError.fewer_ships := by
  unfold save_report_with_coords
  by_cases hdup : (findReport s tok).isSome = true
  · simp [hdup]
  · simp only [Bool.not_eq_true] at hdup
    simp [hdup, h]

/-- C10 witness: player 1 has a stored report of strength 5 but no Player
row; ingesting a strength-1 report with `force = false` does not raise
`fewer_ships`. -/
theorem ingest_no_player_skips_regression_witness :
    save_report_with_coords storeC10 "new1" 1 [(401, 1)] [] "Ogame" 20 none
      false none false 20 ≠ Except.error ReportError.fewer_ships :=
  ingest_no_player_skips_regression storeC10 "new1" 1 [(401, 1)] [] "Ogame" 20
    none false none false 20 (by decide)

/-- C4: for an ingest with no token collision, for a player with a Player
row and a current best report per the §4.4 policy
(thoth/reports.py `get_best_api_key`): when the incoming report's military
strength — the sum of its ship counts excluding the designated peaceful
ship types — is strictly lower than the best report's, the call with
`force = false` (`allow_regression` unset) raises Regression
(`"fewer_ships"`), and the call with `force = true` is accepted. -/
theorem ingest_regression_rejected (s : Store) (tok : String) (pid : Int)
    (ships techs : List (Int × Int)) (src : String) (created : Int)
    (coords : Option Coords) (moon : Bool) (res : Option Resources) (now : Int)
    (pl : Player) (bk : ReportAPIKey)
    (hdup : findReport s tok = none)
    (hpl : findPlayer s pid = some pl)
    (hbk : get_best_api_key now (playerReports s pid) = some bk)
    (hlt : ((ships.filter (fun p => !(Ships.PEACEFUL_SHIPS.contains p.1))).map
        Prod.snd).sum < bk.military_ships_total) :
    save_report_with_coords s tok pid ships techs src created coords moon res
      false now = .error .fewer_ships ∧
    exceptIsOk (save_report_with_coords s tok pid ships techs src created
      coords moon res true now) = true := by
  have hdup' : (findReport s tok).isSome = false := by simp [hdup]
  have hlt' : ((ships.filter (fun p =>
      !decide (p.1 ∈ Ships.PEACEFUL_SHIPS))).map Prod.snd).sum <
      bk.military_ships_total := by simpa using hlt
  constructor
  · simp [save_report_with_coords, hdup', hpl, hbk, hlt']
  · simp [save_report_with_coords, hdup', hpl, hbk, exceptIsOk]

/-- C4 witness: the spec's scenario — best report of strength 5, incoming
ships `{202: 0, 401: 3}` (strength 3 after excluding peaceful type 202):
rejected with `fewer_ships` unless forced. -/
theorem ingest_regression_rejected_witness :
    save_report_with_coords storeC4 "sr-new" 1 [(202, 0), (401, 3)] [] "Ogame"
      20 (some ⟨2, 100, 8⟩) false none false 20 = .error .fewer_ships ∧
    exceptIsOk (save_report_with_coords storeC4 "sr-new" 1 [(202, 0), (401, 3)]
      [] "Ogame" 20 (some ⟨2, 100, 8⟩) false none true 20) = true :=
  ingest_regression_rejected storeC4 "sr-new" 1 [(202, 0), (401, 3)] [] "Ogame"
    20 (some ⟨2, 100, 8⟩) false none 20 { ogame_id := 1, name := "Alice" } rBest
    (by decide) (by decide) (by decide) (by decide)

/-- C5 (code bug, evaluated at the failing input): player 1 has a stored,
unprotected planet at 1:1:1 and the reconcile feed only observes 2:2:2.
Instead of marking the planet `destroyed = true`, `sync_planets` evaluates
`planet.has_recent_manual_edit()` on the first loop's leftover variable —
the last raw feed dict — raising AttributeError, so the pass aborts and
rolls back with the planet left untouched (`destroyed` still false); had
the condition been evaluated on the stored planet, the branch would
`session.delete` it, hard-deleting rather than marking it. -/
theorem sync_absent_planet_raises_cex :
    sync_planets 0 1 storeC5 obsC5 = .error .attribute_error ∧
    sync_result 0 1 storeC5 obsC5 = (storeC5, some .attribute_error) ∧
    pC5.destroyed = false ∧ pC5.has_recent_manual_edit 0 = false :=
  ⟨rfl, rfl, rfl, rfl⟩

/-- C8 counterexample: an accepted ingest with input techs `{109: 0}`
stores a technology line item with level 0 — the zero entry is not
omitted. -/
theorem ingest_zero_tech_stored_cex :
    (ingest_result emptyStore "bs3" 1 [] [(109, 0)] "BattleSim" 0 none false
      none false 0).2 = none ∧
    ((ingest_result emptyStore "bs3" 1 [] [(109, 0)] "BattleSim" 0 none false
      none false 0).1.reports.map ReportAPIKey.techs)
      = [[{ tech_type := 109, level := 0 }]] :=
  ⟨rfl, rfl⟩

/-- C9 counterexample: a stored planet named "Home" reconciled against an
observation of the same coordinate whose name is absent: the pass
succeeds and the stored name is overwritten with the absent name, not
left unchanged. -/
theorem sync_name_overwritten_cex :
    (sync_result 0 1 storeC9 obsC9).2 = none ∧
    pHome.name = some "Home" ∧ (obsC9.map Observation.name) = [none] ∧
    (sync_result 0 1 storeC9 obsC9).1.planets.map Planet.name = [none] :=
  ⟨rfl, rfl, rfl, rfl⟩

/-- The planet half of an ingest never touches the report table. -/
theorem ingestPlanets_reports (s1 : Store) (pid : Int) (coords : Option Coords)
    (moon : Bool) (created : Int) :
    (ingestPlanets s1 pid coords moon created).reports = s1.reports := by
  cases coords with
  | none => rfl
  | some c =>
    simp only [ingestPlanets]
    cases hpf : findPlanet s1 pid c <;> rfl

/-- An accepted `save_report_with_coords` call appends exactly the built
report row to the report table, and implies the token was fresh. -/
theorem save_ok_reports (s : Store) (tok : String) (pid : Int)
    (ships techs : List (Int × Int)) (src : String) (created : Int)
    (coords : Option Coords) (moon : Bool) (res : Option Resources)
    (force : Bool) (now : Int) (s' : Store)
    (hok : save_report_with_coords s tok pid ships techs src created coords
      moon res force now = .ok s') :
    s'.reports = s.reports ++
      [builtReport tok pid ships techs src created coords moon res] ∧
    findReport s tok = none := by
  unfold save_report_with_coords at hok
  by_cases hdup : (findReport s tok).isSome = true
  · simp [hdup] at hok
  · have hnone : findReport s tok = none :=
      Option.not_isSome_iff_eq_none.mp (by simpa using hdup)
    simp only [hnone, Option.isSome_none, Bool.false_eq_true, if_false] at hok
    split at hok
    · simp at hok
    · simp only [Except.ok.injEq] at hok
      subst hok
      refine ⟨?_, hnone⟩
      rw [ingestPlanets_reports]

/-- C8 (amended): for every accepted ingest, every stored ship line item
of the new report has a nonzero count — zero-count ship entries are
omitted — while the stored technology line items are exactly the input
tech entries, including those with level 0. -/
theorem ingest_ship_items_nonzero (s : Store) (tok : String) (pid : Int)
    (ships techs : List (Int × Int)) (src : String) (created : Int)
    (coords : Option Coords) (moon : Bool) (res : Option Resources)
    (force : Bool) (now : Int) (s' : Store)
    (hok : save_report_with_coords s tok pid ships techs src created coords
      moon res force now = .ok s') :
    ∀ r ∈ s'.reports, r.report_api_key = tok →
      (∀ item ∈ r.ships, item.count ≠ 0) ∧
      r.techs = techs.map (fun p => { tech_type := p.1, level := p.2 }) := by
  obtain ⟨hrep, hnone⟩ := save_ok_reports s tok pid ships techs src created
    coords moon res force now s' hok
  intro r hr htok
  rw [hrep] at hr
  rcases List.mem_append.mp hr with hold | hnew
  · have := List.find?_eq_none.mp hnone r hold
    simp [htok] at this
  · have hrb : r = builtReport tok pid ships techs src created coords moon res := by
      simpa using hnew
    subst hrb
    refine ⟨?_, rfl⟩
    intro item hitem
    simp only [builtReport, List.mem_map] at hitem
    obtain ⟨p, hp, rfl⟩ := hitem
    have := (List.mem_filter.mp hp).2
    simpa using this

/-- C8 witness: in the accepted ingest building `storeC8'`, the stored
ship row for type 401 has nonzero count and the stored tech rows are
exactly the input entries. -/
theorem ingest_ship_items_nonzero_witness :
    ({ ship_type := 401, count := 5 } : Ships).count ≠ 0 ∧
    (builtReport "bs4" 1 [(204, 0), (401, 5)] [(109, 3)] "BattleSim" 0 none
        false none).techs
      = [((109 : Int), (3 : Int))].map
        (fun p => { tech_type := p.1, level := p.2 }) := by
  have h := ingest_ship_items_nonzero emptyStore "bs4" 1 [(204, 0), (401, 5)]
    [(109, 3)] "BattleSim" 0 none false none false 0 storeC8' rfl
    (builtReport "bs4" 1 [(204, 0), (401, 5)] [(109, 3)] "BattleSim" 0 none
      false none) (by decide) rfl
  exact ⟨h.1 { ship_type := 401, count := 5 } (by decide), h.2⟩

/-- `find?` on a list tabulating `f` over keys returns the tabulated pair
for any listed key. -/
theorem find?_map_keys {κ : Type} [DecidableEq κ] (f : κ → Int) (l : List κ)
    (k : κ) (hk : k ∈ l) :
    (l.map (fun x => (x, f x))).find? (fun p => decide (p.1 = k))
      = some (k, f k) := by
  induction l with
  | nil => cases hk
  | cons a as ih =>
    by_cases ha : a = k
    · subst ha
      rw [List.map_cons, List.find?_cons_of_pos _ (by simp)]
    · have hk' : k ∈ as := by
        rcases List.mem_cons.mp hk with rfl | h
        · exact absurd rfl ha
        · exact h
      rw [List.map_cons, List.find?_cons_of_neg _ (by simp [ha])]
      exact ih hk'

/-- A key present in either input of `deltaMap` maps to the difference of
the two lookups (absent keys counting as 0). -/
theorem lookup_deltaMap {κ : Type} [DecidableEq κ] (a b : List (κ × Int))
    (k : κ) (h : k ∈ a.map Prod.fst ∨ k ∈ b.map Prod.fst) :
    lookupKV (deltaMap a b) k = some (dictGet a k - dictGet b k) := by
  have hk : k ∈ (a.map Prod.fst ++ b.map Prod.fst).dedup :=
    List.mem_dedup.mpr (List.mem_append.mpr h)
  unfold lookupKV deltaMap
  rw [find?_map_keys (fun k => dictGet a k - dictGet b k) _ k hk]
  rfl

/-- C6: when the delta computation finds a qualifying old report, every
key present in either report maps, in each of the three categories, to
`new_value - old_value` with absent keys counted as 0; when no qualifying
old report exists, all three category mappings are empty. -/
theorem report_with_delta_correct (stored : List ReportAPIKey)
    (new_report : ReportAPIKey) (cd : Bool) :
    (∀ last, (report_with_delta stored new_report true).2 = some last →
      (∀ k : Int, (k ∈ (report_details_ships new_report).map Prod.fst ∨
          k ∈ (report_details_ships last).map Prod.fst) →
        lookupKV (report_with_delta stored new_report true).1.ships k
          = some (dictGet (report_details_ships new_report) k -
              dictGet (report_details_ships last) k)) ∧
      (∀ k : Int, (k ∈ (report_details_techs new_report).map Prod.fst ∨
          k ∈ (report_details_techs last).map Prod.fst) →
        lookupKV (report_with_delta stored new_report true).1.techs k
          = some (dictGet (report_details_techs new_report) k -
              dictGet (report_details_techs last) k)) ∧
      (∀ k : String, (k ∈ (report_details_resources new_report).map Prod.fst ∨
          k ∈ (report_details_resources last).map Prod.fst) →
        lookupKV (report_with_delta stored new_report true).1.resources k
          = some (dictGet (report_details_resources new_report) k -
              dictGet (report_details_resources last) k))) ∧
    (last_report_query stored new_report = none →
      (report_with_delta stored new_report cd).1 = emptyDeltas) := by
  constructor
  · intro last hlast
    unfold report_with_delta at hlast ⊢
    by_cases hsr : str_starts_with new_report.report_api_key "sr-" = true
    · cases hq : last_report_query stored new_report with
      | none => rw [hq] at hlast; simp [hsr] at hlast
      | some lr =>
        rw [hq] at hlast
        simp only [hsr, Bool.not_true, Bool.false_eq_true, if_false,
          Option.some.injEq] at hlast
        subst hlast
        simp only [hsr, hq, Bool.not_true, Bool.false_eq_true, if_false]
        exact ⟨fun k hk => lookup_deltaMap _ _ k hk,
          fun k hk => lookup_deltaMap _ _ k hk,
          fun k hk => lookup_deltaMap _ _ k hk⟩
    · simp [hsr] at hlast
  · intro hq
    unfold report_with_delta
    by_cases hsr : str_starts_with new_report.report_api_key "sr-" = true
    · simp [hsr, hq]
    · simp [hsr]

/-- C6 witness: the spec's scenario — ship 201 from 5 to 12 gives delta 7
and ship 301 present only in the old report at 3 gives delta -3; with
`rDeltaOld` as the qualifying old report of `rDeltaNew`. -/
theorem report_with_delta_correct_witness :
    lookupKV (report_with_delta [rDeltaOld] rDeltaNew true).1.ships 201
      = some (dictGet (report_details_ships rDeltaNew) 201 -
          dictGet (report_details_ships rDeltaOld) 201) ∧
    lookupKV (report_with_delta [rDeltaOld] rDeltaNew true).1.ships 301
      = some (dictGet (report_details_ships rDeltaNew) 301 -
          dictGet (report_details_ships rDeltaOld) 301) ∧
    dictGet (report_details_ships rDeltaNew) 201 -
        dictGet (report_details_ships rDeltaOld) 201 = 7 ∧
    dictGet (report_details_ships rDeltaNew) 301 -
        dictGet (report_details_ships rDeltaOld) 301 = -3 ∧
    (report_with_delta [rDeltaOld] simR true).1 = emptyDeltas := by
  have h := (report_with_delta_correct [rDeltaOld] rDeltaNew true).1 rDeltaOld
    (by decide)
  exact ⟨h.1 201 (Or.inl (by decide)), h.1 301 (Or.inr (by decide)),
    by decide, by decide,
    (report_with_delta_correct [rDeltaOld] simR true).2 (by decide)⟩

/-- A `findPlanet` miss means no stored planet has the corresponding
primary key. -/
theorem findPlanet_none_no_key (s : Store) (pid : Int) (c : Coords)
    (hf : findPlanet s pid c = none) :
    ∀ q ∈ s.planets, planetKey q ≠ (pid, c.galaxy, c.system, c.position) := by
  intro q hq hkey
  have hnp := List.find?_eq_none.mp hf q hq
  simp only [decide_eq_true_eq] at hnp
  apply hnp
  simp only [planetKey, Prod.mk.injEq] at hkey
  exact ⟨hkey.1, hkey.2.1, hkey.2.2.1, hkey.2.2.2⟩

theorem syncUpdate_key (now pid : Int) (o : Observation) (p : Planet) :
    planetKey (syncUpdate now pid o p) = planetKey p := by
  unfold syncUpdate
  split
  · split <;> rfl
  · rfl

theorem syncUpdate_moon (now pid : Int) (o : Observation) (p : Planet)
    (h : p.has_moon = true) : (syncUpdate now pid o p).has_moon = true := by
  unfold syncUpdate
  split
  · split <;> simp [h]
  · exact h

theorem ingestMoonUpdate_key (pid : Int) (c : Coords) (moon : Bool) (p : Planet) :
    planetKey (ingestMoonUpdate pid c moon p) = planetKey p := by
  unfold ingestMoonUpdate
  split
  · split <;> rfl
  · rfl

theorem ingestMoonUpdate_moon (pid : Int) (c : Coords) (moon : Bool) (p : Planet)
    (h : p.has_moon = true) : (ingestMoonUpdate pid c moon p).has_moon = true := by
  unfold ingestMoonUpdate
  split
  · split <;> simp [h]
  · exact h

/-- The planet half of an ingest preserves the moon invariant. -/
theorem ingestPlanets_moon (s1 : Store) (pid : Int) (coords : Option Coords)
    (moon : Bool) (created : Int) (key : Int × Int × Int × Int)
    (hp : presentKey s1 key) (hm : moonTrueAt s1 key) :
    presentKey (ingestPlanets s1 pid coords moon created) key ∧
      moonTrueAt (ingestPlanets s1 pid coords moon created) key := by
  obtain ⟨q0, hq0, hkey0⟩ := hp
  cases coords with
  | none => exact ⟨⟨q0, hq0, hkey0⟩, hm⟩
  | some c =>
    simp only [ingestPlanets]
    cases hpf : findPlanet s1 pid c with
    | none =>
      constructor
      · exact ⟨q0, List.mem_append_left _ hq0, hkey0⟩
      · intro q hq hkey
        rcases List.mem_append.mp hq with hold | hnew
        · exact hm q hold hkey
        · have hq' : q =
              ⟨pid, c.galaxy, c.system, c.position, none, moon, false, some created⟩ := by
            simpa using hnew
          subst hq'
          have hkeyval : key = (pid, c.galaxy, c.system, c.position) := by
            rw [← hkey]; rfl
          exact absurd (hkey0.trans hkeyval)
            (findPlanet_none_no_key s1 pid c hpf q0 hq0)
    | some p =>
      constructor
      · exact ⟨ingestMoonUpdate pid c moon q0, List.mem_map_of_mem _ hq0,
          (ingestMoonUpdate_key pid c moon q0).trans hkey0⟩
      · intro q hq hkey
        obtain ⟨q1, hq1, rfl⟩ := List.mem_map.mp hq
        exact ingestMoonUpdate_moon pid c moon q1
          (hm q1 hq1 ((ingestMoonUpdate_key pid c moon q1).symm.trans hkey))

/-- One step of the reconciliation loop preserves "a planet with this key
exists and every such planet has the moon flag". -/
theorem syncStep_preserves (now pid : Int) (key : Int × Int × Int × Int)
    (s : Store) (o : Observation)
    (h : presentKey s key ∧ moonTrueAt s key) :
    presentKey (syncStep now pid s o) key ∧ moonTrueAt (syncStep now pid s o) key := by
  obtain ⟨⟨q0, hq0, hkey0⟩, hmoon⟩ := h
  unfold syncStep
  cases hf : findPlanet s pid ⟨o.galaxy, o.system, o.position⟩ with
  | some p =>
    constructor
    · exact ⟨syncUpdate now pid o q0, List.mem_map_of_mem _ hq0,
        (syncUpdate_key now pid o q0).trans hkey0⟩
    · intro q hq hkey
      obtain ⟨q1, hq1, rfl⟩ := List.mem_map.mp hq
      exact syncUpdate_moon now pid o q1
        (hmoon q1 hq1 ((syncUpdate_key now pid o q1).symm.trans hkey))
  | none =>
    constructor
    · exact ⟨q0, List.mem_append_left _ hq0, hkey0⟩
    · intro q hq hkey
      rcases List.mem_append.mp hq with hold | hnew
      · exact hmoon q hold hkey
      · have hq' : q =
            ⟨pid, o.galaxy, o.system, o.position, o.name, o.has_moon, false, none⟩ := by
          simpa using hnew
        subst hq'
        have hkeyval : key = (pid, o.galaxy, o.system, o.position) := by
          rw [← hkey]; rfl
        exact absurd (hkey0.trans hkeyval)
          (findPlanet_none_no_key s pid ⟨o.galaxy, o.system, o.position⟩ hf q0 hq0)

/-- The whole first loop of `sync_planets` preserves the moon invariant. -/
theorem syncFold_preserves (now pid : Int) (key : Int × Int × Int × Int) :
    ∀ (obs : List Observation) (s : Store),
      presentKey s key ∧ moonTrueAt s key →
      presentKey (obs.foldl (syncStep now pid) s) key ∧
        moonTrueAt (obs.foldl (syncStep now pid) s) key := by
  intro obs
  induction obs with
  | nil => exact fun s h => h
  | cons o os ih =>
    intro s h
    rw [List.foldl_cons]
    exact ih _ (syncStep_preserves now pid key s o h)

/-- A reconcile pass preserves the moon invariant (the rolled-back error
outcome trivially so). -/
theorem sync_result_moon (now pid : Int) (s : Store) (obs : List Observation)
    (key : Int × Int × Int × Int)
    (h : presentKey s key ∧ moonTrueAt s key) :
    presentKey (sync_result now pid s obs).1 key ∧
      moonTrueAt (sync_result now pid s obs).1 key := by
  unfold sync_result sync_planets
  split
  · rename_i s' heq
    dsimp only at heq
    split at heq
    · injection heq with h'
      subst h'
      exact syncFold_preserves now pid key obs s h
    · cases heq
  · exact h

/-- An accepted `save_report_with_coords` call preserves the moon
invariant. -/
theorem save_ok_moon (s : Store) (tok : String) (pid : Int)
    (ships techs : List (Int × Int)) (src : String) (created : Int)
    (coords : Option Coords) (moon : Bool) (res : Option Resources)
    (force : Bool) (now : Int) (s' : Store) (key : Int × Int × Int × Int)
    (hok : save_report_with_coords s tok pid ships techs src created coords
      moon res force now = .ok s')
    (hp : presentKey s key) (hm : moonTrueAt s key) :
    presentKey s' key ∧ moonTrueAt s' key := by
  unfold save_report_with_coords at hok
  by_cases hdup : (findReport s tok).isSome = true
  · simp [hdup] at hok
  · have hnone : findReport s tok = none :=
      Option.not_isSome_iff_eq_none.mp (by simpa using hdup)
    simp only [hnone, Option.isSome_none, Bool.false_eq_true, if_false] at hok
    split at hok
    · simp at hok
    · simp only [Except.ok.injEq] at hok
      subst hok
      exact ingestPlanets_moon _ pid coords moon created key hp hm

/-- An ingest call preserves the moon invariant (the rolled-back error
outcome trivially so). -/
theorem ingest_result_moon (s : Store) (tok : String) (pid : Int)
    (ships techs : List (Int × Int)) (src : String) (created : Int)
    (coords : Option Coords) (moon : Bool) (res : Option Resources)
    (force : Bool) (now : Int) (key : Int × Int × Int × Int)
    (h : presentKey s key ∧ moonTrueAt s key) :
    presentKey (ingest_result s tok pid ships techs src created coords moon res
        force now).1 key ∧
      moonTrueAt (ingest_result s tok pid ships techs src created coords moon res
        force now).1 key := by
  unfold ingest_result
  split
  · rename_i s' heq
    exact save_ok_moon s tok pid ships techs src created coords moon res force
      now s' key heq h.1 h.2
  · exact h

/-- C7: the stored moon flag is monotonic — for a planet key that exists
with the moon flag set, both a reconcile pass (`sync_planets`) and an
ingest call (`save_report_with_coords`), successful or rolled back, leave
a planet with that key present and its moon flag still true; no such call
resets it to false. -/
theorem moon_flag_monotonic (now pid : Int) (s : Store) (obs : List Observation)
    (tok : String) (pid2 : Int) (ships techs : List (Int × Int)) (src : String)
    (created : Int) (coords : Option Coords) (moon : Bool)
    (res : Option Resources) (force : Bool) (now2 : Int)
    (key : Int × Int × Int × Int)
    (hpres : presentKey s key) (hmoon : moonTrueAt s key) :
    (presentKey (sync_result now pid s obs).1 key ∧
      moonTrueAt (sync_result now pid s obs).1 key) ∧
    (presentKey (ingest_result s tok pid2 ships techs src created coords moon
        res force now2).1 key ∧
      moonTrueAt (ingest_result s tok pid2 ships techs src created coords moon
        res force now2).1 key) :=
  ⟨sync_result_moon now pid s obs key ⟨hpres, hmoon⟩,
   ingest_result_moon s tok pid2 ships techs src created coords moon res force
     now2 key ⟨hpres, hmoon⟩⟩

/-- C7 witness: planet 1/4:4:4 has its moon flag set; a reconcile pass
observing 4:4:4 without a moon and an ingest at 4:4:4 with
`from_moon = false` both leave the flag true. -/
theorem moon_flag_monotonic_witness :
    (presentKey (sync_result 0 1 storeC7 obsC7).1 (1, 4, 4, 4) ∧
      moonTrueAt (sync_result 0 1 storeC7 obsC7).1 (1, 4, 4, 4)) ∧
    (presentKey (ingest_result storeC7 "bs7" 1 [] [] "BattleSim" 0
        (some ⟨4, 4, 4⟩) false none false 0).1 (1, 4, 4, 4) ∧
      moonTrueAt (ingest_result storeC7 "bs7" 1 [] [] "BattleSim" 0
        (some ⟨4, 4, 4⟩) false none false 0).1 (1, 4, 4, 4)) :=
  moon_flag_monotonic 0 1 storeC7 obsC7 "bs7" 1 [] [] "BattleSim" 0
    (some ⟨4, 4, 4⟩) false none false 0 (1, 4, 4, 4)
    ⟨pMoon, by decide, by decide⟩ (by decide)

/-- `findPlanet` hits exactly when a row with the corresponding key is
stored. -/
theorem findPlanet_isSome_iff (s : Store) (pid : Int) (c : Coords) :
    (findPlanet s pid c).isSome = true ↔
      presentKey s (pid, c.galaxy, c.system, c.position) := by
  unfold findPlanet
  rw [List.find?_isSome]
  simp only [decide_eq_true_eq, presentKey, planetKey, Prod.mk.injEq]

/-- A reconciliation step keeps every stored key present. -/
theorem syncStep_present (now pid : Int) (key : Int × Int × Int × Int)
    (s : Store) (o : Observation) (hp : presentKey s key) :
    presentKey (syncStep now pid s o) key := by
  obtain ⟨q0, hq0, hkey0⟩ := hp
  unfold syncStep
  cases hf : findPlanet s pid ⟨o.galaxy, o.system, o.position⟩ with
  | some p =>
    exact ⟨syncUpdate now pid o q0, List.mem_map_of_mem _ hq0,
      (syncUpdate_key now pid o q0).trans hkey0⟩
  | none => exact ⟨q0, List.mem_append_left _ hq0, hkey0⟩

/-- Processing an observation stores its name at its coordinate — on an
existing row by the unconditional `planet_model.name = planet_name`
assignment, on a missing row by the insert. -/
theorem syncStep_sets_name (now pid : Int) (s : Store) (o : Observation) :
    nameIs (syncStep now pid s o) (pid, o.galaxy, o.system, o.position) o.name := by
  unfold syncStep
  cases hf : findPlanet s pid ⟨o.galaxy, o.system, o.position⟩ with
  | some p =>
    have hp := List.mem_of_find?_eq_some hf
    have hpred := List.find?_some hf
    simp only [decide_eq_true_eq] at hpred
    have hkey : planetKey p = (pid, o.galaxy, o.system, o.position) := by
      simp [planetKey, hpred.1, hpred.2.1, hpred.2.2.1, hpred.2.2.2]
    refine ⟨syncUpdate now pid o p, List.mem_map_of_mem _ hp,
      (syncUpdate_key now pid o p).trans hkey, ?_⟩
    unfold syncUpdate
    rw [if_pos hkey]
    split <;> rfl
  | none =>
    exact ⟨⟨pid, o.galaxy, o.system, o.position, o.name, o.has_moon, false, none⟩,
      List.mem_append_right _ (by simp), rfl, rfl⟩

/-- Processing an observation of a different coordinate does not touch the
name stored at this coordinate. -/
theorem syncStep_keeps_name (now pid : Int) (s : Store) (o : Observation)
    (g sy po : Int) (n : Option String)
    (hne : (o.galaxy, o.system, o.position) ≠ (g, sy, po))
    (h : nameIs s (pid, g, sy, po) n) :
    nameIs (syncStep now pid s o) (pid, g, sy, po) n := by
  obtain ⟨q, hq, hkey, hname⟩ := h
  unfold syncStep
  cases hf : findPlanet s pid ⟨o.galaxy, o.system, o.position⟩ with
  | some p =>
    refine ⟨syncUpdate now pid o q, List.mem_map_of_mem _ hq,
      (syncUpdate_key now pid o q).trans hkey, ?_⟩
    unfold syncUpdate
    rw [if_neg ?_]
    · exact hname
    · rw [hkey]
      intro hcontra
      simp only [Prod.mk.injEq] at hcontra
      exact hne (by simp [hcontra.2.1, hcontra.2.2.1, hcontra.2.2.2])
  | none => exact ⟨q, List.mem_append_left _ hq, hkey, hname⟩

/-- Folding steps none of which observes this coordinate keeps its stored
name. -/
theorem syncFold_keeps_name (now pid g sy po : Int) (n : Option String) :
    ∀ (obs : List Observation) (s : Store),
      (∀ x ∈ obs, (x.galaxy, x.system, x.position) ≠ (g, sy, po)) →
      nameIs s (pid, g, sy, po) n →
      nameIs (obs.foldl (syncStep now pid) s) (pid, g, sy, po) n := by
  intro obs
  induction obs with
  | nil => exact fun s _ h => h
  | cons o os ih =>
    intro s hno h
    rw [List.foldl_cons]
    exact ih _ (fun x hx => hno x (List.mem_cons_of_mem o hx))
      (syncStep_keeps_name now pid s o g sy po n (hno o (List.mem_cons_self o os)) h)

/-- Over a feed with pairwise distinct coordinates, the planet at an
observed coordinate ends the first loop carrying that observation's
name. -/
theorem syncFold_name (now pid : Int) (o : Observation) :
    ∀ (obs : List Observation) (s : Store),
      o ∈ obs →
      (obs.map (fun x => (x.galaxy, x.system, x.position))).Nodup →
      (findPlanet s pid ⟨o.galaxy, o.system, o.position⟩).isSome = true →
      nameIs (obs.foldl (syncStep now pid) s)
        (pid, o.galaxy, o.system, o.position) o.name := by
  intro obs
  induction obs with
  | nil => exact fun s ho _ _ => absurd ho (List.not_mem_nil o)
  | cons o' os ih =>
    intro s ho hnd hp
    rw [List.foldl_cons]
    rcases List.mem_cons.mp ho with rfl | ho'
    · have hno : ∀ x ∈ os, (x.galaxy, x.system, x.position) ≠
          (o.galaxy, o.system, o.position) := by
        intro x hx hcontra
        have hmem : (o.galaxy, o.system, o.position) ∈
            os.map (fun x => (x.galaxy, x.system, x.position)) := by
          rw [← hcontra]
          exact List.mem_map_of_mem _ hx
        exact (List.nodup_cons.mp hnd).1 hmem
      exact syncFold_keeps_name now pid o.galaxy o.system o.position o.name os
        (syncStep now pid s o) hno (syncStep_sets_name now pid s o)
    · have hp' : (findPlanet (syncStep now pid s o') pid
          ⟨o.galaxy, o.system, o.position⟩).isSome = true := by
        rw [findPlanet_isSome_iff] at hp ⊢
        exact syncStep_present now pid _ s o' hp
      exact ih (syncStep now pid s o') ho' (List.nodup_cons.mp hnd).2 hp'

/-- C9 (amended): for every successful reconcile pass over a feed with
pairwise distinct coordinates and every already-stored planet observed by
the feed, the planet's stored name is replaced by the observation's name
unconditionally — also when that name is empty or absent. -/
theorem sync_name_replaced (now pid : Int) (s : Store) (obs : List Observation)
    (o : Observation) (s' : Store) (ho : o ∈ obs)
    (hnd : (obs.map (fun x => (x.galaxy, x.system, x.position))).Nodup)
    (hok : sync_planets now pid s obs = .ok s')
    (hp : (findPlanet s pid ⟨o.galaxy, o.system, o.position⟩).isSome = true) :
    ∃ q ∈ s'.planets, planetKey q = (pid, o.galaxy, o.system, o.position) ∧
      q.name = o.name := by
  have hs' : s' = obs.foldl (syncStep now pid) s := by
    unfold sync_planets at hok
    dsimp only at hok
    split at hok
    · injection hok with h'
      exact h'.symm
    · cases hok
  subst hs'
  exact syncFold_name now pid o obs s ho hnd hp

/-- C9 witness: the stored planet named "Home" at 1:1:1, reconciled
against an observation of 1:1:1 with an absent name, ends the pass with
its name overwritten to the absent name. -/
theorem sync_name_replaced_witness :
    ∃ q ∈ (sync_result 0 1 storeC9 obsC9).1.planets,
      planetKey q = (1, 1, 1, 1) ∧ q.name = none :=
  sync_name_replaced 0 1 storeC9 obsC9 ⟨1, 1, 1, false, none⟩
    (sync_result 0 1 storeC9 obsC9).1 (by decide) (by decide) rfl (by decide)

end SdmOgame
